import Mathlib

/-!
Verification of the omics-ai-mcp HTTP wrapper and MCP server
(src/http-wrapper.js: the Express session bridge plus the OmicsAIMCPServer
class with its line-delimited response classifier and polling query engine).

Modelling conventions (shallow embedding of the JavaScript source):
* JS strings handled character-wise (buffers, response bodies, lines, URLs)
  are `List Char`; short identifier-like strings (JSON field names, tool
  names, session ids) are Lean `String`.
* Values produced by `JSON.parse` are the inductive `Json`.  `JSON.parse`
  itself is a JS builtin external to this repository, so it is a parameter
  `jparse` everywhere; both the code model and the spec-reference model use
  the same parameter.
* JS numbers are modelled as `Int` (the claims never involve fractional
  values), and time as natural numbers of milliseconds.
* Fallible JS code (`throw`) is modelled with `Except`; error *messages*
  are modelled as inductive tags naming the thrown message (the spec
  declares human-readable text formatting out of scope).
-/

namespace Omics

/-- JSON values as produced by JSON.parse.  Object fields are kept in
document order; JSON.parse collapses duplicate keys, so field lists coming
from jparse are assumed key-distinct.  Numbers are modelled as integers. -/
inductive Json where
  | null
  | bool (b : Bool)
  | num (n : Int)
  | str (s : String)
  | arr (elems : List Json)
  | obj (fields : List (String × Json))

instance : Inhabited Json := ⟨Json.null⟩

/-- JS truthiness of a JSON.parse result (null, false, 0 and the empty
string are falsy; arrays and objects are always truthy). -/
def Json.truthy : Json → Bool
  | .null => false
  | .bool b => b
  | .num n => n != 0
  | .str s => s != ""
  | .arr _ => true
  | .obj _ => true

/-- Field access `v.k` / `v?.k`: `some` for an own field of an object,
`none` (JS undefined) otherwise. -/
def Json.fieldVal : Json → String → Option Json
  | .obj fs, k => fs.lookup k
  | _, _ => none

/-- True iff the value is a JSON object. -/
def Json.isObj : Json → Bool
  | .obj _ => true
  | _ => false

/-- Models the guarded JS expression `v && (k in v)` for the keys "data"
and "next_page_token" (neither is an Object or Array prototype property):
a falsy `v` short-circuits to `false`; on a truthy object `in` tests the
own keys, on an array it is `false`, and on a truthy primitive the `in`
operator raises a TypeError, modelled by `.error ()`. -/
def jsAndHasIn (v : Json) (k : String) : Except Unit Bool :=
  if !v.truthy then .ok false
  else
    match v with
    | .obj fs => .ok (fs.any (fun f => f.1 == k))
    | .arr _ => .ok false
    | _ => .error ()

/-- Models `v && Object.keys(v).length > 0`: objects count their own keys,
arrays their elements, boxed strings one key per character; numbers and
booleans have no keys. -/
def jsNonEmptyObject (v : Json) : Bool :=
  v.truthy &&
    (match v with
     | .obj fs => !fs.isEmpty
     | .arr xs => !xs.isEmpty
     | .str s => !(s.isEmpty)
     | _ => false)

/-- Models `Object.keys(v)` (used only to render the "Unexpected response
format" message). -/
def jsKeys : Json → List String
  | .obj fs => fs.map Prod.fst
  | .arr xs => (List.range xs.length).map toString
  | .str s => (List.range s.length).map toString
  | _ => []

/-- JS whitespace characters relevant to String.prototype.trim (ASCII
subset; the claims only exercise ASCII bodies). -/
def isJsWhitespace (c : Char) : Bool :=
  c = ' ' || c = '\t' || c = '\n' || c = '\r' || c = '\x0b' || c = '\x0c'

/-- Models JS `s.trim()`. -/
def jsTrim (l : List Char) : List Char :=
  ((l.dropWhile isJsWhitespace).reverse.dropWhile isJsWhitespace).reverse

/-- Models JS `s.split('\n')`: always returns at least one (possibly
empty) piece; pieces contain no newline. -/
def splitNl : List Char → List (List Char)
  | [] => [[]]
  | c :: rest =>
    if c = '\n' then [] :: splitNl rest
    else
      match splitNl rest with
      | [] => [[c]]
      | p :: ps => (c :: p) :: ps

/-! ## Line-delimited response classifier (parseJsonLinesResponse) -/

/-- Error messages thrown by parseJsonLinesResponse, one constructor per
distinct `throw new Error(...)` site, plus the TypeError that the `in`
operator raises on truthy primitive scan candidates. -/
inductive ClassifyError where
  | emptyResponse   -- "Empty response received"
  | noValidLines    -- "No valid lines found in response"
  | noValidJson     -- "No valid JSON objects found in response"
  | noDataOrToken   -- "No data or next_page_token found in response"
  | inOpTypeError   -- TypeError: Cannot use 'in' operator ...
deriving DecidableEq

/-- Line splitting used by the classifier:
`rawText.trim().split('\n').map(line => line.trim()).filter(line => line)`. -/
def splitLines (rawText : List Char) : List (List Char) :=
  ((splitNl (jsTrim rawText)).map jsTrim).filter (fun l => !l.isEmpty)

/-- Descending index loop `for (let i = ...; i >= 0; i--) if (obj && k in obj) return obj`,
expressed on the reversed object list; propagates the TypeError the `in`
operator raises when the scan reaches a truthy primitive. -/
def findFromEnd (k : String) : List Json → Except Unit (Option Json)
  | [] => .ok none
  | v :: rest =>
    match jsAndHasIn v k with
    | .error e => .error e
    | .ok true => .ok (some v)
    | .ok false => findFromEnd k rest

/-- parseJsonLinesResponse from src/http-wrapper.js: reject a blank body;
split into trimmed non-blank lines; parse each line with JSON.parse,
silently dropping lines that fail (the source's `if (line !== "{}")`
branch around the swallowed parse error has an empty body, so every
failing line is dropped); then scan from the last parsed value backwards
for a value with a `data` key, then for one with a `next_page_token` key,
then fall back to the last non-empty parsed value. -/
def parseJsonLinesResponse (jparse : List Char → Option Json) (rawText : List Char) :
    Except ClassifyError Json :=
  if (jsTrim rawText).isEmpty then .error .emptyResponse
  else
    let lines := splitLines rawText
    if lines.isEmpty then .error .noValidLines
    else
      let jsonObjects := lines.filterMap jparse
      if jsonObjects.isEmpty then .error .noValidJson
      else
        match findFromEnd "data" jsonObjects.reverse with
        | .error _ => .error .inOpTypeError
        | .ok (some v) => .ok v
        | .ok none =>
          match findFromEnd "next_page_token" jsonObjects.reverse with
          | .error _ => .error .inOpTypeError
          | .ok (some v) => .ok v
          | .ok none =>
            match (jsonObjects.filter jsNonEmptyObject).getLast? with
            | some v => .ok v
            | none => .error .noDataOrToken

/-- Spec-side test "does this parsed value contain field k": only JSON
objects contain fields. -/
def hasFieldSpec (k : String) : Json → Bool
  | .obj fs => fs.any (fun f => f.1 == k)
  | _ => false

/-- Spec-side test "object having at least one field". -/
def hasAnyFieldSpec : Json → Bool
  | .obj fs => !fs.isEmpty
  | _ => false

/-- Modelled from the spec: the reference classification algorithm of
section 4.1 — split the body into non-blank trimmed lines, parse each
independently (discarding failures), then scanning from the last parsed
object towards the first return the first object containing a data field,
else the first-from-the-end object containing a next_page_token field,
else the last object having at least one field; fail with "no valid JSON
objects" when no line parsed and with "no data or continuation"
otherwise. -/
def refClassify (jparse : List Char → Option Json) (rawText : List Char) :
    Except ClassifyError Json :=
  let objs := (splitLines rawText).filterMap jparse
  if objs.isEmpty then .error .noValidJson
  else
    match objs.reverse.find? (hasFieldSpec "data") with
    | some v => .ok v
    | none =>
      match objs.reverse.find? (hasFieldSpec "next_page_token") with
      | some v => .ok v
      | none =>
        match (objs.filter hasAnyFieldSpec).getLast? with
        | some v => .ok v
        | none => .error .noDataOrToken

lemma findFromEnd_of_isObj (k : String) :
    ∀ l : List Json, (∀ v ∈ l, v.isObj = true) →
      findFromEnd k l = .ok (l.find? (hasFieldSpec k)) := by
  intro l
  induction l with
  | nil => intro _; rfl
  | cons v rest ih =>
    intro h
    have hv : v.isObj = true := h v (List.mem_cons_self _ _)
    have hrest := ih (fun w hw => h w (List.mem_cons_of_mem _ hw))
    cases v with
    | obj fs =>
      rcases hany : fs.any (fun f => f.1 == k) with _ | _ <;>
        simp [findFromEnd, jsAndHasIn, Json.truthy, hasFieldSpec, List.find?, hany, hrest]
    | null => simp [Json.isObj] at hv
    | bool b => simp [Json.isObj] at hv
    | num n => simp [Json.isObj] at hv
    | str s => simp [Json.isObj] at hv
    | arr xs => simp [Json.isObj] at hv

lemma jsNonEmptyObject_of_isObj (v : Json) (h : v.isObj = true) :
    jsNonEmptyObject v = hasAnyFieldSpec v := by
  cases v <;> simp_all [Json.isObj, jsNonEmptyObject, hasAnyFieldSpec, Json.truthy]

/-- C1 (amended): on every body that splits into at least one non-blank
line and whose successfully parsed lines are all JSON objects, the
classifier agrees exactly with the spec's reference algorithm (same
returned object, same failure message).  The amendment excludes blank
bodies (where the code fails with the distinct message "Empty response
received") and lines parsing to truthy non-object values (where the
code's `in` scan raises a TypeError instead of the reference outcome). -/
theorem parseJsonLines_matches_spec (jparse : List Char → Option Json)
    (rawText : List Char)
    (hlines : splitLines rawText ≠ [])
    (hobjs : ∀ l ∈ splitLines rawText, ∀ v, jparse l = some v → v.isObj = true) :
    parseJsonLinesResponse jparse rawText = refClassify jparse rawText := by
  have htrim : (jsTrim rawText).isEmpty = false := by
    rcases h : (jsTrim rawText).isEmpty with _ | _
    · rfl
    · exfalso
      apply hlines
      rw [List.isEmpty_iff] at h
      unfold splitLines
      rw [h]
      rfl
  have hlines2 : (splitLines rawText).isEmpty = false := by
    rcases h : (splitLines rawText).isEmpty with _ | _
    · rfl
    · exact absurd (List.isEmpty_iff.mp h) hlines
  have hobjs2 : ∀ v ∈ (splitLines rawText).filterMap jparse, v.isObj = true := by
    intro v hv
    rcases List.mem_filterMap.mp hv with ⟨l, hl, hjl⟩
    exact hobjs l hl v hjl
  unfold parseJsonLinesResponse refClassify
  simp only [htrim, hlines2, Bool.false_eq_true, if_false]
  rcases hempty : ((splitLines rawText).filterMap jparse).isEmpty with _ | _
  · simp only [Bool.false_eq_true, if_false]
    rw [findFromEnd_of_isObj _ _ (fun v hv => hobjs2 v (List.mem_reverse.mp hv))]
    rcases hd : ((splitLines rawText).filterMap jparse).reverse.find? (hasFieldSpec "data") with
      _ | v
    · rw [findFromEnd_of_isObj _ _ (fun v hv => hobjs2 v (List.mem_reverse.mp hv))]
      rcases ht : ((splitLines rawText).filterMap jparse).reverse.find?
          (hasFieldSpec "next_page_token") with _ | v
      · rw [List.filter_congr (fun v hv => jsNonEmptyObject_of_isObj v (hobjs2 v hv))]
      · rfl
    · rfl
  · simp

/-- Parse stub whose every line fails to parse. -/
def jparseNone : List Char → Option Json := fun _ => none

/-- Parse stub mapping the single line "5" to the JSON number 5. -/
def jparseNum : List Char → Option Json :=
  fun l => if l = ['5'] then some (.num 5) else none

/-- C1 counterexample: the classifier does not equal the reference
algorithm on every body.  On the empty body the code fails with "Empty
response received" while the reference prescribes "no valid JSON
objects"; on the body "5" (one line parsing to the number 5) the code's
`in` scan raises a TypeError while the reference prescribes "no data or
continuation". -/
theorem parseJsonLines_spec_divergence :
    parseJsonLinesResponse jparseNone [] = .error .emptyResponse ∧
    refClassify jparseNone [] = .error .noValidJson ∧
    (Except.error (α := Json) ClassifyError.emptyResponse ≠ .error .noValidJson) ∧
    parseJsonLinesResponse jparseNum ['5'] = .error .inOpTypeError ∧
    refClassify jparseNum ['5'] = .error .noDataOrToken := by
  refine ⟨rfl, rfl, ?_, rfl, rfl⟩
  simp

/-- Parse stub mapping the single line "objline" to a one-field object. -/
def jparseObjLine : List Char → Option Json :=
  fun l => if l = "objline".toList then some (.obj [("a", .num 1)]) else none

/-- C1 witness: the amended equality instantiated on a concrete one-line
body whose parsed value is an object. -/
theorem parseJsonLines_matches_spec_witness :
    splitLines "objline".toList ≠ [] ∧
    parseJsonLinesResponse jparseObjLine "objline".toList =
      refClassify jparseObjLine "objline".toList := by
  refine ⟨by decide, parseJsonLines_matches_spec jparseObjLine _ (by decide) ?_⟩
  intro l hl v hv
  unfold jparseObjLine at hv
  split at hv
  · cases hv; rfl
  · cases hv

/-! ## Network address resolution (getNetworkUrl) -/

/-- Known networks mapping of getNetworkUrl. -/
def knownNetworks : List (List Char × List Char) :=
  [("hifisolves".toList, "hifisolves.org".toList),
   ("neuroscience".toList, "neuroscience.ai".toList),
   ("asap".toList, "cloud.parkinsonsroadmap.org".toList),
   ("parkinsons".toList, "cloud.parkinsonsroadmap.org".toList),
   ("biomedical".toList, "biomedical.ai".toList),
   ("viral".toList, "viral.ai".toList),
   ("targetals".toList, "dataportal.targetals.org".toList)]

/-- Models JS s.startsWith(pre). -/
def jsStartsWith (s pre : List Char) : Bool := pre.isPrefixOf s

/-- Models JS s.endsWith(suf). -/
def jsEndsWith (s suf : List Char) : Bool := suf.isSuffixOf s

/-- Models the (slash, dollar) anchored single-occurrence regex
replacement in the source: it strips at most ONE trailing slash. -/
def stripOneTrailingSlash (s : List Char) : List Char :=
  if jsEndsWith s ['/'] then s.dropLast else s

/-- Property names the JS `in` operator finds on the knownNetworks
object literal through its Object.prototype chain (none of them is an
own key of the literal). -/
def objectPrototypeKeys : List (List Char) :=
  ["constructor".toList, "hasOwnProperty".toList, "isPrototypeOf".toList,
   "propertyIsEnumerable".toList, "toLocaleString".toList, "toString".toList,
   "valueOf".toList, "__proto__".toList, "__defineGetter__".toList,
   "__defineSetter__".toList, "__lookupGetter__".toList, "__lookupSetter__".toList]

/-- getNetworkUrl from src/http-wrapper.js: `if (network in knownNetworks)
network = knownNetworks[network]`, then default the scheme to https when
absent, then strip one trailing slash.  The `in` check also matches the
properties knownNetworks inherits from Object.prototype: for an input
naming one of them, the substitution replaces network by the inherited
function (or prototype object), and the network.startsWith call on the
next line then throws a TypeError — modelled by `.error ()`. -/
def getNetworkUrl (network : List Char) : Except Unit (List Char) :=
  match
    (match knownNetworks.lookup network with
     | some host => Except.ok host
     | none =>
       if objectPrototypeKeys.contains network then Except.error ()
       else Except.ok network : Except Unit (List Char))
  with
  | .error e => .error e
  | .ok network =>
    let network :=
      if !(jsStartsWith network "http://".toList) &&
         !(jsStartsWith network "https://".toList)
      then "https://".toList ++ network
      else network
    .ok (stripOneTrailingSlash network)

/-- C10 counterexample: getNetworkUrl strips only one trailing slash, so
input "x//" resolves to "https://x/" which still ends with a slash, and
resolving that result again strips further (idempotence fails); the
degenerate input "https://" resolves to "https:/" which begins with
neither scheme; and the input "toString" names an inherited
Object.prototype property, so the program throws a TypeError instead of
producing any result. -/
theorem getNetworkUrl_counterexample :
    getNetworkUrl "x//".toList = .ok "https://x/".toList ∧
    getNetworkUrl "https://x/".toList = .ok "https://x".toList ∧
    "https://x/".toList ≠ "https://x".toList ∧
    jsEndsWith "https://x/".toList ['/'] = true ∧
    getNetworkUrl "https://".toList = .ok "https:/".toList ∧
    jsStartsWith "https:/".toList "http://".toList = false ∧
    jsStartsWith "https:/".toList "https://".toList = false ∧
    getNetworkUrl "toString".toList = .error () :=
  ⟨rfl, rfl, by decide, by decide, rfl, by decide, by decide, rfl⟩

lemma lookup_knownNetworks_ht (rest : List Char) :
    knownNetworks.lookup ('h' :: 't' :: rest) = none := rfl

lemma contains_objectPrototypeKeys_ht (rest : List Char) :
    objectPrototypeKeys.contains ('h' :: 't' :: rest) = false := rfl

/-- C10 (amended): getNetworkUrl is idempotent at every input that
resolves successfully to a result beginning with a scheme and carrying no
trailing slash (in particular at every ordinary host or short name) —
resolving that result again returns it unchanged.  The unrestricted
claims fail: only one trailing slash is ever stripped, so a resolved form
ending in a double slash keeps a trailing slash and repeated resolution
strips further, a bare scheme input loses its scheme prefix, and an input
naming an inherited Object.prototype property makes the resolver throw a
TypeError instead of returning at all. -/
theorem getNetworkUrl_conditional_idempotent (n r : List Char)
    (hok : getNetworkUrl n = .ok r)
    (hpre : jsStartsWith r "http://".toList = true ∨
            jsStartsWith r "https://".toList = true)
    (hslash : jsEndsWith r ['/'] = false) :
    getNetworkUrl r = .ok r := by
  obtain ⟨rest, hrest⟩ : ∃ rest, r = 'h' :: 't' :: rest := by
    rcases hpre with h | h
    · rw [jsStartsWith, List.isPrefixOf_iff_prefix] at h
      rcases h with ⟨t, ht⟩
      exact ⟨'t' :: 'p' :: ':' :: '/' :: '/' :: t, by rw [← ht]; rfl⟩
    · rw [jsStartsWith, List.isPrefixOf_iff_prefix] at h
      rcases h with ⟨t, ht⟩
      exact ⟨'t' :: 'p' :: 's' :: ':' :: '/' :: '/' :: t, by rw [← ht]; rfl⟩
  have hlook : knownNetworks.lookup r = none := by
    rw [hrest]; exact lookup_knownNetworks_ht rest
  have hproto : objectPrototypeKeys.contains r = false := by
    rw [hrest]; exact contains_objectPrototypeKeys_ht rest
  rcases hpre with h | h <;>
    simp only [getNetworkUrl, hlook, hproto, Bool.false_eq_true, if_false, h,
      Bool.not_true, Bool.false_and, Bool.and_false, stripOneTrailingSlash, hslash]

/-- C10 witness: the conditional idempotence instantiated at the known
network short name "viral". -/
theorem getNetworkUrl_conditional_idempotent_witness :
    getNetworkUrl "viral".toList = .ok "https://viral.ai".toList ∧
    jsStartsWith "https://viral.ai".toList "https://".toList = true ∧
    jsEndsWith "https://viral.ai".toList ['/'] = false ∧
    getNetworkUrl "https://viral.ai".toList = .ok "https://viral.ai".toList :=
  ⟨rfl, by decide, by decide,
   getNetworkUrl_conditional_idempotent "viral".toList "https://viral.ai".toList rfl
     (Or.inr (by decide)) (by decide)⟩

/-! ## Polling query engine: queryTable -/

/-- Outcome of one awaited client.post in queryTable: either the promise
rejects (transport error) or response.data is a raw text body. -/
inductive TransportOut where
  | fail (msg : String)
  | body (raw : List Char)

/-- Error messages thrown inside queryTable's try block; the catch wraps
each as "Failed to query table: ..." before rethrowing. -/
inductive QueryError where
  | transport (msg : String)
  | classify (e : ClassifyError)
  | inOpTypeError
  | unexpectedFormat (keys : List String)  -- "Unexpected response format: ..."
  | timedOut                               -- "Query timed out after 10 polls"
deriving DecidableEq

/-- Models the unguarded JS expression `k in v` (used on classifier
results, which are always truthy): own-key test on objects, false on
arrays, TypeError on every primitive. -/
def jsHasIn (k : String) (v : Json) : Except Unit Bool :=
  match v with
  | .obj fs => .ok (fs.any (fun f => f.1 == k))
  | .arr _ => .ok false
  | _ => .error ()

/-- Models Array.isArray(result.data). -/
def jsIsDataArray (r : Json) : Bool :=
  match r.fieldVal "data" with
  | some (.arr _) => true
  | _ => false

/-- The result.data element list (empty for non-array data). -/
def jsDataList (r : Json) : List Json :=
  match r.fieldVal "data" with
  | some (.arr xs) => xs
  | _ => []

/-- Models `result.next_page_token !== 'empty_response_poll'` being FALSE:
strict equality with the sentinel string literal. -/
def isSentinel (t : Json) : Bool :=
  match t with
  | .str s => s == "empty_response_poll"
  | _ => false

/-- How one loop iteration of queryTable classifies its response: data
rows (return), a continuation token (poll again), or a thrown error. -/
inductive QueryStepResult where
  | dataRows (rows : List Json) (result : Json)
  | token (t : Json)
  | stepError (e : QueryError)

/-- One iteration of queryTable's polling loop up to the branch decision:
POST, classify with parseJsonLinesResponse, then
`if ('data' in result && Array.isArray(result.data)) ... else if
('next_page_token' in result) ... else throw`. -/
def queryTableStep (jparse : List Char → Option Json) (t : TransportOut) : QueryStepResult :=
  match t with
  | .fail m => .stepError (.transport m)
  | .body raw =>
    match parseJsonLinesResponse jparse raw with
    | .error e => .stepError (.classify e)
    | .ok result =>
      match jsHasIn "data" result with
      | .error _ => .stepError .inOpTypeError
      | .ok hasData =>
        if hasData && jsIsDataArray result then .dataRows (jsDataList result) result
        else
          match jsHasIn "next_page_token" result with
          | .error _ => .stepError .inOpTypeError
          | .ok true => .token ((result.fieldVal "next_page_token").getD .null)
          | .ok false => .stepError (.unexpectedFormat (jsKeys result))

/-- The mutable request payload of queryTable; polling mutates only
next_page_token. -/
structure QueryPayload where
  tableName : String
  filters : Json
  pagination : Json
  order : Option Json
  next_page_token : Option Json

/-- Final outcome of queryTable: a successful formatted reply carrying
result.data, or the wrapped error "Failed to query table: ...". -/
inductive QueryOutcome where
  | success (rows : List Json) (result : Json)
  | failure (e : QueryError)

/-- Observable trace of one queryTable invocation: outcome, number of
POST attempts issued, total between-poll delay waited, and the payload
snapshot sent by each attempt. -/
structure QueryRun where
  outcome : QueryOutcome
  attempts : Nat
  sleepMs : Nat
  payloads : List QueryPayload

/-- const maxPolls = 10. -/
def maxPolls : Nat := 10

/-- const pollInterval = 2000. -/
def pollIntervalMs : Nat := 2000

/-- queryTable's for-loop, by remaining iterations (fuel = maxPolls -
pollCount); exhausting the loop throws "Query timed out after 10 polls".
The environment env gives the transport result of the attempt issued at
each pollCount. -/
def queryTableLoop (jparse : List Char → Option Json) (env : Nat → TransportOut) :
    QueryPayload → Nat → Nat → QueryRun
  | _, _, 0 => ⟨.failure .timedOut, 0, 0, []⟩
  | payload, pollCount, fuel + 1 =>
    match queryTableStep jparse (env pollCount) with
    | .dataRows rows result => ⟨.success rows result, 1, 0, [payload]⟩
    | .stepError e => ⟨.failure e, 1, 0, [payload]⟩
    | .token t =>
      let payload' :=
        if isSentinel t then payload
        else { payload with next_page_token := some t }
      let wait := if pollCount < maxPolls - 1 then pollIntervalMs else 0
      let rest := queryTableLoop jparse env payload' (pollCount + 1) fuel
      ⟨rest.outcome, rest.attempts + 1, rest.sleepMs + wait, payload :: rest.payloads⟩

/-- queryTable from src/http-wrapper.js (polling part; there is no
per-attempt catch, so every thrown error leaves the loop at once). -/
def queryTable (jparse : List Char → Option Json) (env : Nat → TransportOut)
    (payload : QueryPayload) : QueryRun :=
  queryTableLoop jparse env payload 0 maxPolls

/-! ## Polling query engine: sqlSearch / pollSqlResults -/

/-- Outcome of one awaited HTTP call in the SQL flow: rejection, an
axios-parsed JSON body (application/json content type), or a raw text
body parsed locally with JSON.parse. -/
inductive GetOut where
  | fail (msg : String)
  | jsonBody (v : Json)
  | textBody (raw : List Char)

/-- Errors thrown inside the per-attempt try block of the SQL flow. -/
inductive SqlPollError where
  | transport (msg : String)
  | invalidJson           -- "Invalid JSON response: ..."
  | sqlError (details : Json)  -- "SQL query error: ..."

/-- Obtain the parsed body of a response in the SQL flow (content-type
dispatch plus the local JSON.parse fallback). -/
def parsePollBody (jparse : List Char → Option Json) (g : GetOut) :
    Except SqlPollError Json :=
  match g with
  | .fail m => .error (.transport m)
  | .jsonBody v => .ok v
  | .textBody raw =>
    match jparse raw with
    | some v => .ok v
    | none => .error .invalidJson

/-- Models `v.length > 0` composed under a truthiness guard: arrays and
strings report their true length, an object its own "length" field,
numbers and booleans have undefined length (undefined > 0 is false). -/
def jsLengthPos (v : Json) : Bool :=
  match v with
  | .arr xs => !xs.isEmpty
  | .str s => !s.isEmpty
  | .obj fs =>
    match fs.lookup "length" with
    | some (.num n) => decide (0 < n)
    | _ => false
  | _ => false

/-- Models `v.length === 0` (same length semantics). -/
def jsLenIsZero (v : Json) : Bool :=
  match v with
  | .arr xs => xs.isEmpty
  | .str s => s.isEmpty
  | .obj fs =>
    match fs.lookup "length" with
    | some (.num n) => n == 0
    | _ => false
  | _ => false

/-- Models `r.errors && r.errors.length > 0`. -/
def jsErrorsPresent (r : Json) : Bool :=
  match r.fieldVal "errors" with
  | some e => e.truthy && jsLengthPos e
  | none => false

/-- Models `r.errors[0].details || 'Unknown error'`. -/
def jsErrorDetails (r : Json) : Json :=
  match r.fieldVal "errors" with
  | some (.arr (e0 :: _)) =>
    match e0.fieldVal "details" with
    | some d => if d.truthy then d else .str "Unknown error"
    | none => .str "Unknown error"
  | _ => .str "Unknown error"

/-- Models the truthiness of `r.data`. -/
def jsDataTruthy (r : Json) : Bool :=
  match r.fieldVal "data" with
  | some d => d.truthy
  | none => false

/-- Models `r.data.length > 0` (under the truthiness guard). -/
def jsDataLenPos (r : Json) : Bool :=
  match r.fieldVal "data" with
  | some d => jsLengthPos d
  | none => false

/-- Models `r.data.length === 0` (under the truthiness guard). -/
def jsDataLenZero (r : Json) : Bool :=
  match r.fieldVal "data" with
  | some d => jsLenIsZero d
  | none => false

/-- Models `r.pagination?.next_page_url` under a truthiness check:
`some u` exactly when the optional chain produces a truthy value. -/
def jsNextPageUrl (r : Json) : Option Json :=
  match r.fieldVal "pagination" with
  | some p =>
    match p.fieldVal "next_page_url" with
    | some u => if u.truthy then some u else none
    | none => none
  | none => none

/-- How one iteration of pollSqlResults' try block ends: data rows
(format and return), a completed-empty result, a new continuation URL, or
a thrown error (caught by the per-attempt catch). -/
inductive PollStep where
  | gotRows (data : List Json) (result : Json)
  | noResults
  | nextUrl (u : Json)
  | failed (e : SqlPollError)

/-- The body of pollSqlResults' try block: GET, content-type parse,
errors check, then the data / empty-data / next_page_url branch chain. -/
def pollSqlStep (jparse : List Char → Option Json) (g : GetOut) : PollStep :=
  match parsePollBody jparse g with
  | .error e => .failed e
  | .ok pollResult =>
    if jsErrorsPresent pollResult then .failed (.sqlError (jsErrorDetails pollResult))
    else if jsDataTruthy pollResult && jsDataLenPos pollResult then
      .gotRows (jsDataList pollResult) pollResult
    else if jsDataTruthy pollResult && jsDataLenZero pollResult &&
        (jsNextPageUrl pollResult).isNone then
      .noResults
    else
      match jsNextPageUrl pollResult with
      | some u => .nextUrl u
      | none => .noResults

/-- Failures thrown out of pollSqlResults. -/
inductive SqlFailure where
  | pollingFailed (e : SqlPollError)   -- "Polling failed: ..." (final attempt)
  | timedOut (max_polls : Nat)         -- "SQL query timed out after N polls"

/-- Final outcome of pollSqlResults. -/
inductive SqlOutcome where
  | rows (data : List Json) (result : Json)   -- formatSqlResults(...)
  | noResults                                 -- "completed with no results"
  | failure (e : SqlFailure)

/-- Observable trace of one pollSqlResults invocation: outcome, number of
GET attempts, total sleep time (one poll_interval before every attempt),
and the continuation URL used by each attempt. -/
structure SqlRun where
  outcome : SqlOutcome
  attempts : Nat
  sleepMs : Nat
  urls : List Json

/-- pollSqlResults' for-loop, by remaining iterations (fuel = max_polls -
pollCount).  An iteration sleeps, issues the GET through env, and on a
thrown error retries with the SAME url when pollCount < max_polls - 1,
else throws "Polling failed"; exhausting the loop throws the SQL timeout
error. -/
def pollSqlLoop (jparse : List Char → Option Json) (env : Nat → GetOut)
    (max_polls poll_interval_ms : Nat) : Json → Nat → Nat → SqlRun
  | _, _, 0 => ⟨.failure (.timedOut max_polls), 0, 0, []⟩
  | nextPageUrl, pollCount, fuel + 1 =>
    match pollSqlStep jparse (env pollCount) with
    | .gotRows data result => ⟨.rows data result, 1, poll_interval_ms, [nextPageUrl]⟩
    | .noResults => ⟨.noResults, 1, poll_interval_ms, [nextPageUrl]⟩
    | .nextUrl u =>
      let rest := pollSqlLoop jparse env max_polls poll_interval_ms u (pollCount + 1) fuel
      ⟨rest.outcome, rest.attempts + 1, rest.sleepMs + poll_interval_ms,
        nextPageUrl :: rest.urls⟩
    | .failed e =>
      if pollCount < max_polls - 1 then
        let rest :=
          pollSqlLoop jparse env max_polls poll_interval_ms nextPageUrl (pollCount + 1) fuel
        ⟨rest.outcome, rest.attempts + 1, rest.sleepMs + poll_interval_ms,
          nextPageUrl :: rest.urls⟩
      else ⟨.failure (.pollingFailed e), 1, poll_interval_ms, [nextPageUrl]⟩

/-- pollSqlResults from src/http-wrapper.js. -/
def pollSqlResults (jparse : List Char → Option Json) (env : Nat → GetOut)
    (nextPageUrl : Json) (max_polls poll_interval_ms : Nat) : SqlRun :=
  pollSqlLoop jparse env max_polls poll_interval_ms nextPageUrl 0 max_polls

/-- Errors surfaced by sqlSearch (its catch wraps every inner message as
"Failed to execute SQL query: ..."). -/
inductive SqlSearchError where
  | initFailure (e : SqlPollError)
  | pollFailure (e : SqlFailure)

/-- Final outcome of sqlSearch. -/
inductive SqlSearchOutcome where
  | rows (data : List Json) (result : Json)
  | noResults
  | failure (e : SqlSearchError)

/-- sqlSearch from src/http-wrapper.js: initial POST, immediate error /
immediate data checks, then either the completed-with-no-results reply
(no pagination URL) or the handoff to pollSqlResults. -/
def sqlSearch (jparse : List Char → Option Json) (init : GetOut) (env : Nat → GetOut)
    (max_polls poll_interval_ms : Nat) : SqlSearchOutcome :=
  match parsePollBody jparse init with
  | .error e => .failure (.initFailure e)
  | .ok result =>
    if jsErrorsPresent result then .failure (.initFailure (.sqlError (jsErrorDetails result)))
    else if jsDataTruthy result && jsDataLenPos result then
      .rows (jsDataList result) result
    else
      match jsNextPageUrl result with
      | none => .noResults
      | some u =>
        match (pollSqlResults jparse env u max_polls poll_interval_ms).outcome with
        | .rows d r => .rows d r
        | .noResults => .noResults
        | .failure e => .failure (.pollFailure e)

/-! ## Loop unfolding helpers -/

lemma queryTableLoop_stepError (jparse : List Char → Option Json) (env : Nat → TransportOut)
    (payload : QueryPayload) (pollCount fuel : Nat) (e : QueryError)
    (h : queryTableStep jparse (env pollCount) = .stepError e) :
    queryTableLoop jparse env payload pollCount (fuel + 1) = ⟨.failure e, 1, 0, [payload]⟩ := by
  unfold queryTableLoop
  rw [h]

lemma queryTableLoop_dataRows (jparse : List Char → Option Json) (env : Nat → TransportOut)
    (payload : QueryPayload) (pollCount fuel : Nat) (rows : List Json) (result : Json)
    (h : queryTableStep jparse (env pollCount) = .dataRows rows result) :
    queryTableLoop jparse env payload pollCount (fuel + 1) =
      ⟨.success rows result, 1, 0, [payload]⟩ := by
  unfold queryTableLoop
  rw [h]

lemma queryTableLoop_token (jparse : List Char → Option Json) (env : Nat → TransportOut)
    (payload : QueryPayload) (pollCount fuel : Nat) (t : Json)
    (h : queryTableStep jparse (env pollCount) = .token t) :
    queryTableLoop jparse env payload pollCount (fuel + 1) =
      (let payload' :=
        if isSentinel t then payload
        else { payload with next_page_token := some t }
      let wait := if pollCount < maxPolls - 1 then pollIntervalMs else 0
      let rest := queryTableLoop jparse env payload' (pollCount + 1) fuel
      ⟨rest.outcome, rest.attempts + 1, rest.sleepMs + wait, payload :: rest.payloads⟩) := by
  conv_lhs => rw [queryTableLoop, h]

lemma pollSqlLoop_nextUrl (jparse : List Char → Option Json) (env : Nat → GetOut)
    (mp pims : Nat) (url u : Json) (pollCount fuel : Nat)
    (h : pollSqlStep jparse (env pollCount) = .nextUrl u) :
    pollSqlLoop jparse env mp pims url pollCount (fuel + 1) =
      (let rest := pollSqlLoop jparse env mp pims u (pollCount + 1) fuel
      ⟨rest.outcome, rest.attempts + 1, rest.sleepMs + pims, url :: rest.urls⟩) := by
  conv_lhs => rw [pollSqlLoop, h]

lemma pollSqlLoop_failed_retry (jparse : List Char → Option Json) (env : Nat → GetOut)
    (mp pims : Nat) (url : Json) (pollCount fuel : Nat) (e : SqlPollError)
    (h : pollSqlStep jparse (env pollCount) = .failed e)
    (hlt : pollCount < mp - 1) :
    pollSqlLoop jparse env mp pims url pollCount (fuel + 1) =
      (let rest := pollSqlLoop jparse env mp pims url (pollCount + 1) fuel
      ⟨rest.outcome, rest.attempts + 1, rest.sleepMs + pims, url :: rest.urls⟩) := by
  simp only [pollSqlLoop, h]
  simp [hlt]

lemma pollSqlLoop_failed_final (jparse : List Char → Option Json) (env : Nat → GetOut)
    (mp pims : Nat) (url : Json) (pollCount fuel : Nat) (e : SqlPollError)
    (h : pollSqlStep jparse (env pollCount) = .failed e)
    (hge : ¬ pollCount < mp - 1) :
    pollSqlLoop jparse env mp pims url pollCount (fuel + 1) =
      ⟨.failure (.pollingFailed e), 1, pims, [url]⟩ := by
  simp only [pollSqlLoop, h]
  simp [hge]

lemma pollSqlStep_noResults (jparse : List Char → Option Json) (g : GetOut) (v : Json)
    (hok : parsePollBody jparse g = .ok v)
    (herr : jsErrorsPresent v = false)
    (hdat : (jsDataTruthy v && jsDataLenPos v) = false)
    (hurl : jsNextPageUrl v = none) :
    pollSqlStep jparse g = .noResults := by
  unfold pollSqlStep
  rw [hok]
  simp only [herr, hdat, hurl, Bool.false_eq_true, if_false, Option.isNone_none, Bool.and_true]
  split <;> rfl

/-! ## C2: Empty classification without a continuation -/

/-- C2 (amended): in the SQL-search flow both call sites terminate
successfully on an empty classification with no continuation — sqlSearch
replies "completed with no results" when the initial response carries no
error, no non-empty data and no pagination URL, and pollSqlResults does
the same for a poll response of that shape; but in queryTable an Empty
classification (an object with neither a data key nor a next_page_token
key) is NOT a successful no-results outcome: it throws "Unexpected
response format", surfaced as a query failure. -/
theorem empty_without_continuation_outcomes :
    (∀ (jparse : List Char → Option Json) (init : GetOut) (env : Nat → GetOut)
       (mp pims : Nat) (v : Json),
       parsePollBody jparse init = .ok v →
       jsErrorsPresent v = false →
       (jsDataTruthy v && jsDataLenPos v) = false →
       jsNextPageUrl v = none →
       sqlSearch jparse init env mp pims = .noResults) ∧
    (∀ (jparse : List Char → Option Json) (env : Nat → GetOut) (url : Json)
       (mp pims : Nat) (v : Json),
       1 ≤ mp →
       parsePollBody jparse (env 0) = .ok v →
       jsErrorsPresent v = false →
       (jsDataTruthy v && jsDataLenPos v) = false →
       jsNextPageUrl v = none →
       (pollSqlResults jparse env url mp pims).outcome = .noResults) ∧
    (∀ (jparse : List Char → Option Json) (env : Nat → TransportOut)
       (payload : QueryPayload) (raw : List Char) (r : Json),
       env 0 = .body raw →
       parseJsonLinesResponse jparse raw = .ok r →
       jsHasIn "data" r = .ok false →
       jsHasIn "next_page_token" r = .ok false →
       (queryTable jparse env payload).outcome = .failure (.unexpectedFormat (jsKeys r))) := by
  refine ⟨?_, ?_, ?_⟩
  · intro jparse init env mp pims v hok herr hdat hurl
    unfold sqlSearch
    rw [hok]
    simp only [herr, hdat, hurl, Bool.false_eq_true, if_false]
  · intro jparse env url mp pims v hmp hok herr hdat hurl
    obtain ⟨f, rfl⟩ : ∃ f, mp = f + 1 := ⟨mp - 1, (Nat.succ_pred_eq_of_pos hmp).symm⟩
    unfold pollSqlResults pollSqlLoop
    rw [pollSqlStep_noResults jparse (env 0) v hok herr hdat hurl]
  · intro jparse env payload raw r henv hcls hd ht
    have hstep : queryTableStep jparse (env 0) = .stepError (.unexpectedFormat (jsKeys r)) := by
      simp only [queryTableStep, henv, hcls, hd, ht, Bool.false_and, Bool.false_eq_true,
        if_false]
    have h10 : maxPolls = 9 + 1 := rfl
    unfold queryTable
    rw [h10, queryTableLoop_stepError jparse env payload 0 9 _ hstep]

/-- Parse stub mapping the line "status-line" to an object with a lone
status field (a classifier Empty-with-content result). -/
def jparseStatus : List Char → Option Json :=
  fun l => if l = "status-line".toList then some (.obj [("status", .str "ok")]) else none

/-- Environment whose every response body is the single status line. -/
def envStatus : Nat → TransportOut := fun _ => .body "status-line".toList

/-- A concrete initial queryTable payload. -/
def payload0 : QueryPayload := ⟨"tbl", .obj [], .obj [], none, none⟩

/-- C2 counterexample: at the queryTable call site an Empty
classification with no continuation does NOT terminate as a successful
no-results outcome — the engine fails with "Unexpected response format"
on its first attempt. -/
theorem empty_without_continuation_counterexample :
    (queryTable jparseStatus envStatus payload0).outcome =
      .failure (.unexpectedFormat ["status"]) ∧
    (queryTable jparseStatus envStatus payload0).attempts = 1 := by
  exact ⟨rfl, rfl⟩

/-- Poll response with an empty data array and no pagination block. -/
def vEmptyData : Json := .obj [("data", .arr [])]

/-- Environment whose every GET yields the empty-data response. -/
def envEmptyData : Nat → GetOut := fun _ => .jsonBody vEmptyData

/-- C2 witness: the amended statement instantiated on concrete runs. -/
theorem empty_without_continuation_witness :
    sqlSearch jparseNone (.jsonBody vEmptyData) envEmptyData 5 1000 = .noResults ∧
    (pollSqlResults jparseNone envEmptyData (.str "u") 5 1000).outcome = .noResults ∧
    (queryTable jparseStatus envStatus payload0).outcome =
      .failure (.unexpectedFormat ["status"]) :=
  ⟨empty_without_continuation_outcomes.1 jparseNone (.jsonBody vEmptyData) envEmptyData
      5 1000 vEmptyData rfl rfl rfl rfl,
   empty_without_continuation_outcomes.2.1 jparseNone envEmptyData (.str "u")
      5 1000 vEmptyData (by decide) rfl rfl rfl rfl,
   empty_without_continuation_outcomes.2.2 jparseStatus envStatus payload0
      "status-line".toList (.obj [("status", .str "ok")]) rfl rfl rfl rfl⟩

/-! ## C3: transport errors vs parse failures across poll attempts -/

/-- C3 (amended): the retry discipline is per call site, not the claimed
asymmetry.  queryTable has no per-attempt catch: a transport error OR a
classification failure on any attempt (here the first of ten) leaves the
loop at once as a failure.  pollSqlResults catches everything thrown in
an attempt: any error — transport or parse alike — on a non-final
attempt is swallowed and the loop continues from the next attempt with
the same URL, while on the final allowed attempt it surfaces as
"Polling failed". -/
theorem retry_surface_asymmetry :
    (∀ (jparse : List Char → Option Json) (env : Nat → TransportOut)
       (payload : QueryPayload) (m : String),
       env 0 = .fail m →
       queryTable jparse env payload = ⟨.failure (.transport m), 1, 0, [payload]⟩) ∧
    (∀ (jparse : List Char → Option Json) (env : Nat → TransportOut)
       (payload : QueryPayload) (raw : List Char) (e : ClassifyError),
       env 0 = .body raw →
       parseJsonLinesResponse jparse raw = .error e →
       queryTable jparse env payload = ⟨.failure (.classify e), 1, 0, [payload]⟩) ∧
    (∀ (jparse : List Char → Option Json) (env : Nat → GetOut) (url : Json)
       (mp pims : Nat) (e : SqlPollError),
       2 ≤ mp →
       pollSqlStep jparse (env 0) = .failed e →
       (pollSqlResults jparse env url mp pims).outcome =
         (pollSqlLoop jparse env mp pims url 1 (mp - 1)).outcome ∧
       (pollSqlResults jparse env url mp pims).attempts =
         (pollSqlLoop jparse env mp pims url 1 (mp - 1)).attempts + 1) ∧
    (∀ (jparse : List Char → Option Json) (env : Nat → GetOut) (url : Json)
       (pims : Nat) (e : SqlPollError),
       pollSqlStep jparse (env 0) = .failed e →
       pollSqlResults jparse env url 1 pims =
         ⟨.failure (.pollingFailed e), 1, pims, [url]⟩) := by
  refine ⟨?_, ?_, ?_, ?_⟩
  · intro jparse env payload m henv
    have hstep : queryTableStep jparse (env 0) = .stepError (.transport m) := by
      simp only [queryTableStep, henv]
    have h10 : maxPolls = 9 + 1 := rfl
    unfold queryTable
    rw [h10, queryTableLoop_stepError jparse env payload 0 9 _ hstep]
  · intro jparse env payload raw e henv hcls
    have hstep : queryTableStep jparse (env 0) = .stepError (.classify e) := by
      simp only [queryTableStep, henv, hcls]
    have h10 : maxPolls = 9 + 1 := rfl
    unfold queryTable
    rw [h10, queryTableLoop_stepError jparse env payload 0 9 _ hstep]
  · intro jparse env url mp pims e hmp hstep
    obtain ⟨f, rfl⟩ : ∃ f, mp = f + 2 := ⟨mp - 2, by omega⟩
    unfold pollSqlResults
    rw [pollSqlLoop_failed_retry jparse env (f + 2) pims url 0 (f + 1) e hstep (by omega)]
    exact ⟨rfl, rfl⟩
  · intro jparse env url pims e hstep
    unfold pollSqlResults
    rw [pollSqlLoop_failed_final jparse env 1 pims url 0 0 e hstep (by omega)]

/-- Poll response carrying one data row. -/
def vOneRow : Json := .obj [("data", .arr [.obj [("x", .num 1)]])]

/-- Environment whose first GET yields unparseable text and whose second
yields a data row. -/
def envParseFailThenRows : Nat → GetOut :=
  fun k => if k = 0 then .textBody "not-json".toList else .jsonBody vOneRow

/-- Environment whose every POST rejects with a transport error. -/
def envFail : Nat → TransportOut := fun _ => .fail "boom"

/-- C3 counterexample: (i) a transport error on queryTable's FIRST (non
final, maxPolls = 10) attempt is surfaced at once instead of being
swallowed and retried; (ii) a parse failure on a non-final
pollSqlResults attempt is swallowed and retried to a successful result
instead of being surfaced immediately. -/
theorem retry_surface_asymmetry_counterexample :
    queryTable jparseNone envFail payload0 =
      ⟨.failure (.transport "boom"), 1, 0, [payload0]⟩ ∧
    (pollSqlResults jparseNone envParseFailThenRows (.str "u") 3 1).outcome =
      .rows [.obj [("x", .num 1)]] vOneRow ∧
    (pollSqlResults jparseNone envParseFailThenRows (.str "u") 3 1).attempts = 2 :=
  ⟨rfl, rfl, rfl⟩

/-- Environment whose every GET rejects with a transport error. -/
def envFailG : Nat → GetOut := fun _ => .fail "boom"

/-- Environment whose every POST returns an empty body. -/
def envEmptyBody : Nat → TransportOut := fun _ => .body []

/-- C3 witness: the amended discipline instantiated on concrete runs. -/
theorem retry_surface_asymmetry_witness :
    queryTable jparseNone envFail payload0 =
      ⟨.failure (.transport "boom"), 1, 0, [payload0]⟩ ∧
    queryTable jparseNone envEmptyBody payload0 =
      ⟨.failure (.classify .emptyResponse), 1, 0, [payload0]⟩ ∧
    (pollSqlResults jparseNone envParseFailThenRows (.str "u") 3 1).outcome =
      (pollSqlLoop jparseNone envParseFailThenRows 3 1 (.str "u") 1 2).outcome ∧
    pollSqlResults jparseNone envFailG (.str "u") 1 7 =
      ⟨.failure (.pollingFailed (.transport "boom")), 1, 7, [.str "u"]⟩ :=
  ⟨retry_surface_asymmetry.1 jparseNone envFail payload0 "boom" rfl,
   retry_surface_asymmetry.2.1 jparseNone envEmptyBody payload0 [] .emptyResponse rfl rfl,
   (retry_surface_asymmetry.2.2.1 jparseNone envParseFailThenRows (.str "u") 3 1
      .invalidJson (by decide) rfl).1,
   retry_surface_asymmetry.2.2.2 jparseNone envFailG (.str "u") 7 (.transport "boom") rfl⟩

/-! ## C4: attempt bounds, delay bounds, timeout on exhaustion -/

/-- True when one queryTable attempt classifies as a continuation. -/
def queryTableContinues (jparse : List Char → Option Json) (t : TransportOut) : Bool :=
  match queryTableStep jparse t with
  | .token _ => true
  | _ => false

/-- True when one pollSqlResults attempt yields a next continuation URL. -/
def pollContinues (jparse : List Char → Option Json) (g : GetOut) : Bool :=
  match pollSqlStep jparse g with
  | .nextUrl _ => true
  | _ => false

lemma queryTableLoop_attempts_le (jparse : List Char → Option Json)
    (env : Nat → TransportOut) :
    ∀ (fuel pollCount : Nat) (payload : QueryPayload),
      (queryTableLoop jparse env payload pollCount fuel).attempts ≤ fuel := by
  intro fuel
  induction fuel with
  | zero => intro pc payload; exact Nat.le_refl 0
  | succ f ih =>
    intro pc payload
    cases hstep : queryTableStep jparse (env pc) with
    | dataRows rows result =>
      rw [queryTableLoop_dataRows jparse env payload pc f rows result hstep]
      dsimp only
      omega
    | stepError e =>
      rw [queryTableLoop_stepError jparse env payload pc f e hstep]
      dsimp only
      omega
    | token t =>
      rw [queryTableLoop_token jparse env payload pc f t hstep]
      dsimp only
      exact Nat.succ_le_succ (ih (pc + 1) _)

lemma queryTableLoop_sleep_le (jparse : List Char → Option Json)
    (env : Nat → TransportOut) :
    ∀ (fuel pollCount : Nat) (payload : QueryPayload),
      (queryTableLoop jparse env payload pollCount fuel).sleepMs ≤ fuel * pollIntervalMs := by
  intro fuel
  induction fuel with
  | zero => intro pc payload; exact Nat.le_refl 0
  | succ f ih =>
    intro pc payload
    cases hstep : queryTableStep jparse (env pc) with
    | dataRows rows result =>
      rw [queryTableLoop_dataRows jparse env payload pc f rows result hstep]
      exact Nat.zero_le _
    | stepError e =>
      rw [queryTableLoop_stepError jparse env payload pc f e hstep]
      exact Nat.zero_le _
    | token t =>
      rw [queryTableLoop_token jparse env payload pc f t hstep]
      dsimp only
      have hwait : (if pc < maxPolls - 1 then pollIntervalMs else 0) ≤ pollIntervalMs := by
        split <;> omega
      have := ih (pc + 1)
        (if isSentinel t then payload else { payload with next_page_token := some t })
      calc _ ≤ f * pollIntervalMs + pollIntervalMs := Nat.add_le_add this hwait
        _ = (f + 1) * pollIntervalMs := by ring

lemma queryTableLoop_timeout (jparse : List Char → Option Json)
    (env : Nat → TransportOut) :
    ∀ (fuel pollCount : Nat) (payload : QueryPayload),
      (∀ k, pollCount ≤ k → k < pollCount + fuel → queryTableContinues jparse (env k) = true) →
      (queryTableLoop jparse env payload pollCount fuel).outcome = .failure .timedOut := by
  intro fuel
  induction fuel with
  | zero => intro pc payload _; rfl
  | succ f ih =>
    intro pc payload hcont
    have h0 := hcont pc (Nat.le_refl pc) (by omega)
    cases hstep : queryTableStep jparse (env pc) with
    | dataRows rows result => simp [queryTableContinues, hstep] at h0
    | stepError e => simp [queryTableContinues, hstep] at h0
    | token t =>
      rw [queryTableLoop_token jparse env payload pc f t hstep]
      dsimp only
      exact ih (pc + 1) _ (fun k hk1 hk2 => hcont k (by omega) (by omega))

lemma pollSqlLoop_attempts_le (jparse : List Char → Option Json)
    (env : Nat → GetOut) (mp pims : Nat) :
    ∀ (fuel pollCount : Nat) (url : Json),
      (pollSqlLoop jparse env mp pims url pollCount fuel).attempts ≤ fuel := by
  intro fuel
  induction fuel with
  | zero => intro pc url; exact Nat.le_refl 0
  | succ f ih =>
    intro pc url
    cases hstep : pollSqlStep jparse (env pc) with
    | gotRows d r =>
      conv_lhs => rw [pollSqlLoop, hstep]
      dsimp only
      omega
    | noResults =>
      conv_lhs => rw [pollSqlLoop, hstep]
      dsimp only
      omega
    | nextUrl u =>
      rw [pollSqlLoop_nextUrl jparse env mp pims url u pc f hstep]
      dsimp only
      exact Nat.succ_le_succ (ih (pc + 1) u)
    | failed e =>
      by_cases hc : pc < mp - 1
      · rw [pollSqlLoop_failed_retry jparse env mp pims url pc f e hstep hc]
        dsimp only
        exact Nat.succ_le_succ (ih (pc + 1) url)
      · rw [pollSqlLoop_failed_final jparse env mp pims url pc f e hstep hc]
        dsimp only
        omega

lemma pollSqlLoop_sleep_le (jparse : List Char → Option Json)
    (env : Nat → GetOut) (mp pims : Nat) :
    ∀ (fuel pollCount : Nat) (url : Json),
      (pollSqlLoop jparse env mp pims url pollCount fuel).sleepMs ≤ fuel * pims := by
  intro fuel
  induction fuel with
  | zero => intro pc url; simp [pollSqlLoop]
  | succ f ih =>
    intro pc url
    have hstepbound : pims ≤ (f + 1) * pims := by
      have : 1 * pims ≤ (f + 1) * pims := Nat.mul_le_mul_right pims (by omega)
      omega
    cases hstep : pollSqlStep jparse (env pc) with
    | gotRows d r =>
      conv_lhs => rw [pollSqlLoop, hstep]
      dsimp only
      exact hstepbound
    | noResults =>
      conv_lhs => rw [pollSqlLoop, hstep]
      dsimp only
      exact hstepbound
    | nextUrl u =>
      rw [pollSqlLoop_nextUrl jparse env mp pims url u pc f hstep]
      dsimp only
      calc _ ≤ f * pims + pims := Nat.add_le_add (ih (pc + 1) u) (Nat.le_refl pims)
        _ = (f + 1) * pims := by ring
    | failed e =>
      by_cases hc : pc < mp - 1
      · rw [pollSqlLoop_failed_retry jparse env mp pims url pc f e hstep hc]
        dsimp only
        calc _ ≤ f * pims + pims := Nat.add_le_add (ih (pc + 1) url) (Nat.le_refl pims)
          _ = (f + 1) * pims := by ring
      · rw [pollSqlLoop_failed_final jparse env mp pims url pc f e hstep hc]
        dsimp only
        exact hstepbound

lemma pollSqlLoop_timeout (jparse : List Char → Option Json)
    (env : Nat → GetOut) (mp pims : Nat) :
    ∀ (fuel pollCount : Nat) (url : Json),
      (∀ k, pollCount ≤ k → k < pollCount + fuel → pollContinues jparse (env k) = true) →
      (pollSqlLoop jparse env mp pims url pollCount fuel).outcome = .failure (.timedOut mp) := by
  intro fuel
  induction fuel with
  | zero => intro pc url _; rfl
  | succ f ih =>
    intro pc url hcont
    have h0 := hcont pc (Nat.le_refl pc) (by omega)
    cases hstep : pollSqlStep jparse (env pc) with
    | gotRows d r => simp [pollContinues, hstep] at h0
    | noResults => simp [pollContinues, hstep] at h0
    | failed e => simp [pollContinues, hstep] at h0
    | nextUrl u =>
      rw [pollSqlLoop_nextUrl jparse env mp pims url u pc f hstep]
      dsimp only
      exact ih (pc + 1) u (fun k hk1 hk2 => hcont k (by omega) (by omega))

/-- C4: each polling loop issues at most the allowed number of HTTP
attempts; the sum of its between-poll delays is at most
max_polls * poll_interval (the modelled wall-clock bound); and when every
attempt within the budget classifies as a continuation the run ends as
the timeout failure ("Query timed out after 10 polls" / "SQL query timed
out after N polls"). -/
theorem polling_bounded_and_timeout :
    (∀ (jparse : List Char → Option Json) (env : Nat → TransportOut)
       (payload : QueryPayload),
       (queryTable jparse env payload).attempts ≤ maxPolls ∧
       (queryTable jparse env payload).sleepMs ≤ maxPolls * pollIntervalMs ∧
       ((∀ k, k < maxPolls → queryTableContinues jparse (env k) = true) →
         (queryTable jparse env payload).outcome = .failure .timedOut)) ∧
    (∀ (jparse : List Char → Option Json) (env : Nat → GetOut) (url : Json)
       (mp pims : Nat),
       (pollSqlResults jparse env url mp pims).attempts ≤ mp ∧
       (pollSqlResults jparse env url mp pims).sleepMs ≤ mp * pims ∧
       ((∀ k, k < mp → pollContinues jparse (env k) = true) →
         (pollSqlResults jparse env url mp pims).outcome = .failure (.timedOut mp))) := by
  constructor
  · intro jparse env payload
    refine ⟨queryTableLoop_attempts_le jparse env maxPolls 0 payload,
      queryTableLoop_sleep_le jparse env maxPolls 0 payload, ?_⟩
    intro hcont
    exact queryTableLoop_timeout jparse env maxPolls 0 payload
      (fun k hk1 hk2 => hcont k (by omega))
  · intro jparse env url mp pims
    refine ⟨pollSqlLoop_attempts_le jparse env mp pims mp 0 url,
      pollSqlLoop_sleep_le jparse env mp pims mp 0 url, ?_⟩
    intro hcont
    exact pollSqlLoop_timeout jparse env mp pims mp 0 url
      (fun k hk1 hk2 => hcont k (by omega))

/-- Continuation-token response object used by queryTable environments. -/
def vToken : Json := .obj [("next_page_token", .str "t1")]

/-- Parse stub mapping the line "token-line" to the continuation-token
object. -/
def jparseTok : List Char → Option Json :=
  fun l => if l = "token-line".toList then some vToken else none

/-- Environment whose every POST returns the continuation-token body. -/
def envTok : Nat → TransportOut := fun _ => .body "token-line".toList

/-- Poll response carrying only a pagination next_page_url. -/
def vNextUrl : Json := .obj [("pagination", .obj [("next_page_url", .str "u2")])]

/-- Environment whose every GET yields the pagination-only response. -/
def envNextUrl : Nat → GetOut := fun _ => .jsonBody vNextUrl

/-- C4 witness: both loops on an unbounded stream of continuation
responses end in their timeout failures. -/
theorem polling_bounded_and_timeout_witness :
    (queryTable jparseTok envTok payload0).outcome = .failure .timedOut ∧
    (pollSqlResults jparseNone envNextUrl (.str "u") 3 50).outcome = .failure (.timedOut 3) :=
  ⟨(polling_bounded_and_timeout.1 jparseTok envTok payload0).2.2 (by decide),
   (polling_bounded_and_timeout.2 jparseNone envNextUrl (.str "u") 3 50).2.2 (by decide)⟩

/-! ## C5: continuation updates and the no-op sentinel -/

lemma queryTableLoop_payloads_head (jparse : List Char → Option Json)
    (env : Nat → TransportOut) (payload : QueryPayload) (pollCount fuel : Nat) :
    ((queryTableLoop jparse env payload pollCount (fuel + 1)).payloads)[0]? = some payload := by
  cases hstep : queryTableStep jparse (env pollCount) with
  | dataRows rows result =>
    rw [queryTableLoop_dataRows jparse env payload pollCount fuel rows result hstep]
    rfl
  | stepError e =>
    rw [queryTableLoop_stepError jparse env payload pollCount fuel e hstep]
    rfl
  | token t =>
    rw [queryTableLoop_token jparse env payload pollCount fuel t hstep]
    dsimp only
    exact List.getElem?_cons_zero

lemma pollSqlLoop_urls_head (jparse : List Char → Option Json)
    (env : Nat → GetOut) (mp pims : Nat) (url : Json) (pollCount fuel : Nat) :
    ((pollSqlLoop jparse env mp pims url pollCount (fuel + 1)).urls)[0]? = some url := by
  cases hstep : pollSqlStep jparse (env pollCount) with
  | gotRows d r =>
    conv_lhs => rw [pollSqlLoop, hstep]
    rfl
  | noResults =>
    conv_lhs => rw [pollSqlLoop, hstep]
    rfl
  | nextUrl u =>
    rw [pollSqlLoop_nextUrl jparse env mp pims url u pollCount fuel hstep]
    dsimp only
    exact List.getElem?_cons_zero
  | failed e =>
    by_cases hc : pollCount < mp - 1
    · rw [pollSqlLoop_failed_retry jparse env mp pims url pollCount fuel e hstep hc]
      dsimp only
      exact List.getElem?_cons_zero
    · rw [pollSqlLoop_failed_final jparse env mp pims url pollCount fuel e hstep hc]
      rfl

/-- C5 (amended): in queryTable a continuation token equal to the
sentinel string leaves the payload of the next attempt entirely
unchanged, and any other token replaces exactly the next_page_token field
of the payload; in pollSqlResults there is NO sentinel check — every
truthy next_page_url, the sentinel string included, becomes the URL of
the next attempt. -/
theorem continuation_update_discipline :
    (∀ (jparse : List Char → Option Json) (env : Nat → TransportOut)
       (payload : QueryPayload) (t : Json),
       queryTableStep jparse (env 0) = .token t →
       isSentinel t = true →
       ((queryTable jparse env payload).payloads)[1]? = some payload) ∧
    (∀ (jparse : List Char → Option Json) (env : Nat → TransportOut)
       (payload : QueryPayload) (t : Json),
       queryTableStep jparse (env 0) = .token t →
       isSentinel t = false →
       ((queryTable jparse env payload).payloads)[1]? =
         some { payload with next_page_token := some t }) ∧
    (∀ (jparse : List Char → Option Json) (env : Nat → GetOut) (url u : Json)
       (mp pims : Nat),
       2 ≤ mp →
       pollSqlStep jparse (env 0) = .nextUrl u →
       ((pollSqlResults jparse env url mp pims).urls)[1]? = some u) := by
  refine ⟨?_, ?_, ?_⟩
  · intro jparse env payload t hstep hsent
    have h10 : maxPolls = 9 + 1 := rfl
    unfold queryTable
    rw [h10, queryTableLoop_token jparse env payload 0 9 t hstep]
    dsimp only
    rw [if_pos hsent]
    rw [show (9 : Nat) = 8 + 1 from rfl]
    rw [List.getElem?_cons_succ]
    exact queryTableLoop_payloads_head jparse env payload 1 8
  · intro jparse env payload t hstep hsent
    have h10 : maxPolls = 9 + 1 := rfl
    unfold queryTable
    rw [h10, queryTableLoop_token jparse env payload 0 9 t hstep]
    dsimp only
    rw [if_neg (by simp [hsent])]
    rw [show (9 : Nat) = 8 + 1 from rfl]
    rw [List.getElem?_cons_succ]
    exact queryTableLoop_payloads_head jparse env _ 1 8
  · intro jparse env url u mp pims hmp hstep
    obtain ⟨f, rfl⟩ : ∃ f, mp = f + 2 := ⟨mp - 2, by omega⟩
    unfold pollSqlResults
    rw [pollSqlLoop_nextUrl jparse env (f + 2) pims url u 0 (f + 1) hstep]
    dsimp only
    rw [List.getElem?_cons_succ]
    exact pollSqlLoop_urls_head jparse env (f + 2) pims u 1 f

/-- Poll response whose next_page_url equals the sentinel string. -/
def vSentinelUrl : Json :=
  .obj [("pagination", .obj [("next_page_url", .str "empty_response_poll")])]

/-- Environment whose every GET yields the sentinel-URL response. -/
def envSentinelUrl : Nat → GetOut := fun _ => .jsonBody vSentinelUrl

/-- C5 counterexample: in pollSqlResults a continuation value equal to
the sentinel does NOT leave the continuation reference unchanged — the
second attempt is issued against the sentinel string itself rather than
the original URL. -/
theorem continuation_sentinel_counterexample :
    ((pollSqlResults jparseNone envSentinelUrl (.str "u0") 2 1).urls)[1]? =
      some (.str "empty_response_poll") ∧
    some (Json.str "empty_response_poll") ≠ some (Json.str "u0") := by
  refine ⟨rfl, ?_⟩
  simp

/-- Continuation-token response object equal to the no-op sentinel. -/
def vSentTok : Json := .obj [("next_page_token", .str "empty_response_poll")]

/-- Parse stub mapping the line "sent-line" to the sentinel-token
object. -/
def jparseSentTok : List Char → Option Json :=
  fun l => if l = "sent-line".toList then some vSentTok else none

/-- Environment whose every POST returns the sentinel-token body. -/
def envSentTok : Nat → TransportOut := fun _ => .body "sent-line".toList

/-- C5 witness: the amended update discipline instantiated on concrete
runs — sentinel token leaves queryTable's second payload unchanged, a
plain token rewrites only next_page_token, and pollSqlResults adopts the
new URL. -/
theorem continuation_update_discipline_witness :
    ((queryTable jparseSentTok envSentTok payload0).payloads)[1]? = some payload0 ∧
    ((queryTable jparseTok envTok payload0).payloads)[1]? =
      some { payload0 with next_page_token := some (.str "t1") } ∧
    ((pollSqlResults jparseNone envNextUrl (.str "u") 4 9).urls)[1]? =
      some (.str "u2") :=
  ⟨continuation_update_discipline.1 jparseSentTok envSentTok payload0
      (.str "empty_response_poll") rfl rfl,
   continuation_update_discipline.2.1 jparseTok envTok payload0 (.str "t1") rfl rfl,
   continuation_update_discipline.2.2 jparseNone envNextUrl (.str "u") (.str "u2")
      4 9 (by omega) rfl⟩

/-! ## Session/process bridge -/

/-- One session record of the bridge: worker process handle, partial-line
stdout buffer, and the queue of decoded protocol messages. -/
structure Session where
  id : String
  pid : Nat
  buffer : List Char
  responses : List Json

/-- The activeSessions map, as an association list with distinct keys
(Map semantics). -/
abbrev SessionTable := List (String × Session)

/-- const timeout = 30000 in the send handler. -/
def sendTimeoutMs : Nat := 30000

/-- setTimeout(resolve, 100) in the busy-poll wait. -/
def sendPollMs : Nat := 100

/-- Receive-queue contents at busy-poll check k: the queue was cleared
when the call began, and arrivals j lists the messages the stream reader
appended between checks j-1 and j (in stream order). -/
def queueAt (arrivals : Nat → List Json) (k : Nat) : List Json :=
  (List.range (k + 1)).flatMap arrivals

/-- Result of one POST /session/:sessionId/message call. -/
inductive SendResult where
  | notFound          -- 404 Session not found
  | messageRequired   -- 400 Message is required
  | reply (m : Json)  -- res.json(session.responses[0])
  | timeout           -- 504 Request timeout

/-- The handler's busy-wait, one recursion step per 100 ms check:
`while (responses.length === 0) { if (now - start > 30000) return 504;
await sleep(100) }` followed by replying with the first queued message;
check k happens at elapsed time 100 * k. -/
def sendWaitLoop (arrivals : Nat → List Json) (k : Nat) : SendResult :=
  match queueAt arrivals k with
  | m :: _ => .reply m
  | [] =>
    if h : sendPollMs * k > sendTimeoutMs then .timeout
    else sendWaitLoop arrivals (k + 1)
termination_by sendTimeoutMs / sendPollMs + 2 - k
decreasing_by
  simp only [sendTimeoutMs, sendPollMs] at *
  omega

/-- Observable effect of one send call: its HTTP result and the frames
written to the worker's stdin. -/
structure SendRun where
  result : SendResult
  writes : List (List Char)

/-- POST /session/:sessionId/message: 404 on an unknown session, 400 on a
missing message; otherwise clear the receive queue, write
JSON.stringify(message) terminated by one newline to the worker process,
and busy-poll the queue.  The wait consults only the queue and the clock,
so a worker that exits without replying still yields a 504 within the
deadline.  JSON.stringify is a JS builtin, passed as a parameter. -/
def send (stringify : Json → List Char) (table : SessionTable) (sessionId : String)
    (message : Option Json) (arrivals : Nat → List Json) : SendRun :=
  match table.lookup sessionId with
  | none => ⟨.notFound, []⟩
  | some _ =>
    match message with
    | none => ⟨.messageRequired, []⟩
    | some m => ⟨sendWaitLoop arrivals 0, [stringify m ++ ['\n']]⟩

lemma sendWaitLoop_timeout_aux (arrivals : Nat → List Json) :
    ∀ n k, sendTimeoutMs / sendPollMs + 2 - k ≤ n →
      sendPollMs * k ≤ sendTimeoutMs + sendPollMs →
      (∀ j, sendPollMs * j ≤ sendTimeoutMs + sendPollMs → queueAt arrivals j = []) →
      sendWaitLoop arrivals k = .timeout := by
  intro n
  induction n with
  | zero =>
    intro k hk hkk hq
    exfalso
    simp only [sendTimeoutMs, sendPollMs] at hk hkk
    omega
  | succ n ih =>
    intro k hk hkk hq
    rw [sendWaitLoop, hq k hkk]
    dsimp only
    split
    · rfl
    · next h =>
      refine ih (k + 1) ?_ ?_ hq
      · simp only [sendTimeoutMs, sendPollMs] at *
        omega
      · simp only [sendTimeoutMs, sendPollMs] at *
        omega

lemma sendWaitLoop_reply_aux (arrivals : Nat → List Json) (k0 : Nat)
    (hne : queueAt arrivals k0 ≠ [])
    (hmin : ∀ j, j < k0 → queueAt arrivals j = [])
    (hk0 : sendPollMs * k0 ≤ sendTimeoutMs + sendPollMs) :
    ∀ n k, k0 - k ≤ n → k ≤ k0 →
      sendWaitLoop arrivals k = .reply ((queueAt arrivals k0).headI) := by
  intro n
  induction n with
  | zero =>
    intro k hk hkle
    have hkk : k = k0 := by omega
    subst hkk
    cases hq : queueAt arrivals k with
    | nil => exact absurd hq hne
    | cons m tl => rw [sendWaitLoop, hq]; rfl
  | succ n ih =>
    intro k hk hkle
    rcases Nat.lt_or_ge k k0 with hlt | hge
    · rw [sendWaitLoop, hmin k hlt]
      have hnottime : ¬ sendPollMs * k > sendTimeoutMs := by
        simp only [sendTimeoutMs, sendPollMs] at *
        omega
      dsimp only
      rw [dif_neg hnottime]
      exact ih (k + 1) (by omega) (by omega)
    · have hkk : k = k0 := by omega
      subst hkk
      cases hq : queueAt arrivals k with
      | nil => exact absurd hq hne
      | cons m tl => rw [sendWaitLoop, hq]; rfl

/-- C6: send returns NotFound (404) on every id absent from the session
table; on a known id (with a message present) it writes the stringified
message plus one newline, busy-polls every 100 ms, replies with the first
queued message when one arrives at a check within the 30-second deadline
(the check at elapsed time 100k is reached while 100k does not exceed
30000 + 100), and times out (504) when no message is ever queued within
the deadline — in particular when the worker process exited before
replying, since the wait consults only the queue and the clock. -/
theorem send_behavior :
    (∀ (stringify : Json → List Char) (table : SessionTable) (sid : String)
       (msg : Option Json) (arrivals : Nat → List Json),
       table.lookup sid = none →
       send stringify table sid msg arrivals = ⟨.notFound, []⟩) ∧
    (∀ (stringify : Json → List Char) (table : SessionTable) (sid : String)
       (s : Session) (m : Json) (arrivals : Nat → List Json) (k0 : Nat),
       table.lookup sid = some s →
       (∀ j, j < k0 → queueAt arrivals j = []) →
       queueAt arrivals k0 ≠ [] →
       sendPollMs * k0 ≤ sendTimeoutMs + sendPollMs →
       (send stringify table sid (some m) arrivals).result =
         .reply ((queueAt arrivals k0).headI) ∧
       (send stringify table sid (some m) arrivals).writes =
         [stringify m ++ ['\n']]) ∧
    (∀ (stringify : Json → List Char) (table : SessionTable) (sid : String)
       (s : Session) (m : Json) (arrivals : Nat → List Json),
       table.lookup sid = some s →
       (∀ j, sendPollMs * j ≤ sendTimeoutMs + sendPollMs → queueAt arrivals j = []) →
       (send stringify table sid (some m) arrivals).result = .timeout) := by
  refine ⟨?_, ?_, ?_⟩
  · intro stringify table sid msg arrivals h
    unfold send
    rw [h]
  · intro stringify table sid s m arrivals k0 h hmin hne hk0
    unfold send
    rw [h]
    exact ⟨sendWaitLoop_reply_aux arrivals k0 hne hmin hk0 k0 0 (by omega) (by omega), rfl⟩
  · intro stringify table sid s m arrivals h hq
    unfold send
    rw [h]
    exact sendWaitLoop_timeout_aux arrivals (sendTimeoutMs / sendPollMs + 2) 0
      (Nat.sub_le _ _) (by simp [sendTimeoutMs, sendPollMs]) hq

/-- A concrete session record. -/
def sess1 : Session := ⟨"s1", 7, [], []⟩

/-- A concrete one-session table. -/
def table1 : SessionTable := [("s1", sess1)]

/-- Arrival schedule queuing one message at the fourth check. -/
def arrivalsAt3 : Nat → List Json := fun k => if k = 3 then [.str "hello"] else []

/-- Arrival schedule that never queues anything (worker exited). -/
def arrivalsNever : Nat → List Json := fun _ => []

lemma queueAt_arrivalsNever (j : Nat) : queueAt arrivalsNever j = [] := by
  simp [queueAt, arrivalsNever]

/-- C6 witness: send on an unknown id, on a reply arriving at the fourth
check, and on a silent worker. -/
theorem send_behavior_witness :
    send (fun _ => []) table1 "zz" (some .null) arrivalsNever = ⟨.notFound, []⟩ ∧
    (send (fun _ => []) table1 "s1" (some (.str "m")) arrivalsAt3).result =
      .reply ((queueAt arrivalsAt3 3).headI) ∧
    (send (fun _ => []) table1 "s1" (some (.str "m")) arrivalsNever).result = .timeout :=
  ⟨send_behavior.1 (fun _ => []) table1 "zz" (some .null) arrivalsNever rfl,
   (send_behavior.2.1 (fun _ => []) table1 "s1" sess1 (.str "m") arrivalsAt3 3 rfl
      (by intro j hj; interval_cases j <;> rfl)
      (by rw [show queueAt arrivalsAt3 3 = [.str "hello"] from rfl]; simp)
      (by decide)).1,
   send_behavior.2.2 (fun _ => []) table1 "s1" sess1 (.str "m") arrivalsNever rfl
      (fun j _ => queueAt_arrivalsNever j)⟩

/-- Result of one DELETE /session/:sessionId call. -/
inductive CloseResult where
  | notFound   -- 404 Session not found
  | closed     -- message: Session closed

/-- Observable effect of one close call: its HTTP result, the table
afterwards, and the pid of the killed worker process, if any. -/
structure CloseRun where
  result : CloseResult
  table : SessionTable
  killed : Option Nat

/-- Models activeSessions.delete(sessionId). -/
def deleteSession (table : SessionTable) (sessionId : String) : SessionTable :=
  table.filter (fun e => e.1 != sessionId)

/-- DELETE /session/:sessionId: 404 on an unknown session, otherwise
session.process.kill() and removal of the table entry. -/
def closeSession (table : SessionTable) (sessionId : String) : CloseRun :=
  match table.lookup sessionId with
  | none => ⟨.notFound, table, none⟩
  | some s => ⟨.closed, deleteSession table sessionId, some s.pid⟩

/-- GET /sessions: every known id, each flagged active. -/
def listSessions (table : SessionTable) : List (String × Bool) :=
  table.map (fun e => (e.1, true))

lemma lookup_deleteSession (table : SessionTable) (sid : String) :
    (deleteSession table sid).lookup sid = none := by
  induction table with
  | nil => rfl
  | cons e t ih =>
    rcases e with ⟨k, s⟩
    by_cases h : k = sid
    · subst h
      simpa [deleteSession, List.filter_cons, bne_self_eq_false] using ih
    · have hb : (k != sid) = true := bne_iff_ne.mpr h
      have hb2 : (sid == k) = false := beq_eq_false_iff_ne.mpr (Ne.symm h)
      simp only [deleteSession, List.filter_cons, hb, if_true, List.lookup, hb2]
      exact ih

lemma not_mem_listSessions_deleteSession (table : SessionTable) (sid : String) (b : Bool) :
    (sid, b) ∉ listSessions (deleteSession table sid) := by
  intro hmem
  simp only [listSessions, deleteSession, List.mem_map, List.mem_filter,
    Prod.mk.injEq] at hmem
  rcases hmem with ⟨e, ⟨_, hne⟩, heq, _⟩
  rw [heq] at hne
  simp at hne

/-- C7: close on every id absent from the session table fails with
NotFound; on a known id it kills that session's worker process and
removes the table entry, so the id then fails lookup, a second close of
the same id returns NotFound, the id no longer appears in the GET
/sessions listing, and a subsequent send to the id returns NotFound. -/
theorem close_behavior :
    (∀ (table : SessionTable) (sid : String),
       table.lookup sid = none → closeSession table sid = ⟨.notFound, table, none⟩) ∧
    (∀ (table : SessionTable) (sid : String) (s : Session),
       table.lookup sid = some s →
       (closeSession table sid).result = .closed ∧
       (closeSession table sid).killed = some s.pid ∧
       ((closeSession table sid).table).lookup sid = none ∧
       (closeSession (closeSession table sid).table sid).result = .notFound ∧
       (∀ b, (sid, b) ∉ listSessions (closeSession table sid).table) ∧
       (∀ (stringify : Json → List Char) (msg : Option Json)
          (arrivals : Nat → List Json),
          (send stringify (closeSession table sid).table sid msg arrivals).result =
            .notFound)) := by
  constructor
  · intro table sid h
    unfold closeSession
    rw [h]
  · intro table sid s h
    have htab : (closeSession table sid).table = deleteSession table sid := by
      unfold closeSession
      rw [h]
    refine ⟨?_, ?_, ?_, ?_, ?_, ?_⟩
    · unfold closeSession
      rw [h]
    · unfold closeSession
      rw [h]
    · rw [htab]
      exact lookup_deleteSession table sid
    · rw [htab]
      unfold closeSession
      rw [lookup_deleteSession table sid]
    · intro b
      rw [htab]
      exact not_mem_listSessions_deleteSession table sid b
    · intro stringify msg arrivals
      rw [htab]
      unfold send
      rw [lookup_deleteSession table sid]

/-- C7 witness: closing the one known session of a concrete table. -/
theorem close_behavior_witness :
    closeSession table1 "zz" = ⟨.notFound, table1, none⟩ ∧
    (closeSession table1 "s1").result = .closed ∧
    (closeSession table1 "s1").killed = some 7 ∧
    ((closeSession table1 "s1").table).lookup "s1" = none ∧
    (closeSession (closeSession table1 "s1").table "s1").result = .notFound ∧
    (send (fun _ => []) (closeSession table1 "s1").table "s1" (some .null)
        arrivalsNever).result = .notFound :=
  ⟨close_behavior.1 table1 "zz" rfl,
   (close_behavior.2 table1 "s1" sess1 rfl).1,
   (close_behavior.2 table1 "s1" sess1 rfl).2.1,
   (close_behavior.2 table1 "s1" sess1 rfl).2.2.1,
   (close_behavior.2 table1 "s1" sess1 rfl).2.2.2.1,
   (close_behavior.2 table1 "s1" sess1 rfl).2.2.2.2.2 (fun _ => []) (some .null)
      arrivalsNever⟩

/-! ## Tool dispatch layer (CallToolRequestSchema handler) -/

/-- A protocol reply: the content array of (type, text) items.  Every
value of this type is a successful protocol reply — there is no
protocol-error case, matching the handler's catch-all contract. -/
structure ToolReply where
  content : List (String × String)

/-- The catch branch: a successful reply whose payload is the
human-readable text "Error: " followed by the thrown message. -/
def errorReply (msg : String) : ToolReply := ⟨[("text", "Error: " ++ msg)]⟩

/-- The six tool implementations, abstracted as fallible handlers (an
Except error models an awaited rejection with that message). -/
structure ToolHandlers where
  list_collections : Json → Except String ToolReply
  list_tables : Json → Except String ToolReply
  get_schema_fields : Json → Except String ToolReply
  query_table : Json → Except String ToolReply
  count_rows : Json → Except String ToolReply
  sql_search : Json → Except String ToolReply

/-- The six tool names of the switch. -/
def knownToolNames : List String :=
  ["list_collections", "list_tables", "get_schema_fields", "query_table",
   "count_rows", "sql_search"]

/-- The switch of the CallToolRequestSchema handler: route to a handler
or throw "Unknown tool: ...". -/
def dispatchTool (h : ToolHandlers) (name : String) (args : Json) :
    Except String ToolReply :=
  match name with
  | "list_collections" => h.list_collections args
  | "list_tables" => h.list_tables args
  | "get_schema_fields" => h.get_schema_fields args
  | "query_table" => h.query_table args
  | "count_rows" => h.count_rows args
  | "sql_search" => h.sql_search args
  | _ => .error ("Unknown tool: " ++ name)

/-- The full CallToolRequestSchema handler: the try/catch around the
switch re-expresses every thrown error as a successful reply carrying
error text, so the handler is total into ToolReply. -/
def callToolRequestHandler (h : ToolHandlers) (name : String) (args : Json) : ToolReply :=
  match dispatchTool h name args with
  | .ok r => r
  | .error e => errorReply e

lemma dispatchTool_unknown (h : ToolHandlers) (name : String) (args : Json)
    (hn : name ∉ knownToolNames) :
    dispatchTool h name args = .error ("Unknown tool: " ++ name) := by
  unfold dispatchTool
  split
  · exact absurd (show "list_collections" ∈ knownToolNames by decide) hn
  · exact absurd (show "list_tables" ∈ knownToolNames by decide) hn
  · exact absurd (show "get_schema_fields" ∈ knownToolNames by decide) hn
  · exact absurd (show "query_table" ∈ knownToolNames by decide) hn
  · exact absurd (show "count_rows" ∈ knownToolNames by decide) hn
  · exact absurd (show "sql_search" ∈ knownToolNames by decide) hn
  · rfl

/-- C8: every tools/call invocation produces a successful protocol reply
— a name outside the six known tools yields the "Unknown tool" error
text, any handler rejection is caught and re-expressed as a reply whose
payload is "Error: " plus the thrown message, and a successful handler
result passes through unchanged. -/
theorem call_tool_always_replies :
    (∀ (h : ToolHandlers) (name : String) (args : Json),
       name ∉ knownToolNames →
       callToolRequestHandler h name args = errorReply ("Unknown tool: " ++ name)) ∧
    (∀ (h : ToolHandlers) (name : String) (args : Json) (e : String),
       dispatchTool h name args = .error e →
       callToolRequestHandler h name args = errorReply e) ∧
    (∀ (h : ToolHandlers) (name : String) (args : Json) (r : ToolReply),
       dispatchTool h name args = .ok r →
       callToolRequestHandler h name args = r) := by
  refine ⟨?_, ?_, ?_⟩
  · intro h name args hn
    unfold callToolRequestHandler
    rw [dispatchTool_unknown h name args hn]
  · intro h name args e hd
    unfold callToolRequestHandler
    rw [hd]
  · intro h name args r hd
    unfold callToolRequestHandler
    rw [hd]

/-- Handlers whose first five tools reject and whose sixth succeeds. -/
def handlersX : ToolHandlers :=
  ⟨fun _ => .error "boom1", fun _ => .error "boom2", fun _ => .error "boom3",
   fun _ => .error "boom4", fun _ => .error "boom5", fun _ => .ok ⟨[("text", "ok")]⟩⟩

/-- C8 witness: an unknown tool name, a rejecting handler, and a
succeeding handler, each answered with a successful reply. -/
theorem call_tool_always_replies_witness :
    callToolRequestHandler handlersX "bogus_tool" .null =
      errorReply ("Unknown tool: " ++ "bogus_tool") ∧
    callToolRequestHandler handlersX "list_collections" .null = errorReply "boom1" ∧
    callToolRequestHandler handlersX "sql_search" .null = ⟨[("text", "ok")]⟩ :=
  ⟨call_tool_always_replies.1 handlersX "bogus_tool" .null (by decide),
   call_tool_always_replies.2.1 handlersX "list_collections" .null "boom1" rfl,
   call_tool_always_replies.2.2 handlersX "sql_search" .null ⟨[("text", "ok")]⟩ rfl⟩

/-! ## Session stream framing (stdout data handler) -/

/-- The stdout data callback (identical in POST /session and in the
messages endpoint): append the chunk to the buffer, split on newlines,
keep the popped last (possibly empty) piece as the new buffer, and for
every remaining complete line whose trim is non-blank push
JSON.parse(line) onto the receive queue, silently discarding lines that
fail to parse. -/
def onData (jparse : List Char → Option Json) (s : Session) (chunk : List Char) : Session :=
  let buffer := s.buffer ++ chunk
  let lines := splitNl buffer
  let buffer' := lines.getLastD []
  let complete := lines.dropLast
  { s with
    buffer := buffer',
    responses := s.responses ++ complete.filterMap (fun line =>
      if (jsTrim line).isEmpty then none else jparse line) }

/-- Session state created by POST /session: empty buffer, empty queue. -/
def mkSession (id : String) (pid : Nat) : Session := ⟨id, pid, [], []⟩

/-- Fold the data callback over a sequence of stdout chunks. -/
def processChunks (jparse : List Char → Option Json) (s : Session)
    (chunks : List (List Char)) : Session :=
  chunks.foldl (onData jparse) s

/-- Spec-side: the suffix of the byte stream after its last newline (the
unterminated tail). -/
def tailAfterLastNl : List Char → List Char
  | [] => []
  | c :: rest =>
    if '\n' ∈ rest then tailAfterLastNl rest
    else if c = '\n' then rest
    else c :: rest

/-- Spec-side: the newline-terminated complete lines of the stream, in
stream order. -/
def completeLines (stream : List Char) : List (List Char) :=
  (splitNl stream).dropLast

/-- Spec-side: the messages decoded from the stream's complete lines, in
stream order (blank lines skipped, unparseable lines discarded). -/
def decodedMessages (jparse : List Char → Option Json) (stream : List Char) : List Json :=
  (completeLines stream).filterMap (fun line =>
    if (jsTrim line).isEmpty then none else jparse line)

/-- Join a partial trailing piece onto the head of a later split. -/
def consHd (p : List Char) : List (List Char) → List (List Char)
  | [] => [p]
  | q :: qs => (p ++ q) :: qs

/-- Join two newline-split runs: the last (unterminated) piece of the
first continues into the first piece of the second. -/
def appendSplit : List (List Char) → List (List Char) → List (List Char)
  | [], ss => ss
  | [p], ss => consHd p ss
  | p :: ps, ss => p :: appendSplit ps ss

lemma splitNl_ne_nil (l : List Char) : splitNl l ≠ [] := by
  cases l with
  | nil => simp [splitNl]
  | cons c rest =>
    simp only [splitNl]
    split
    · simp
    · split <;> simp

lemma consHd_ne_nil (p : List Char) (ss : List (List Char)) : consHd p ss ≠ [] := by
  cases ss <;> simp [consHd]

lemma splitNl_append (b : List Char) :
    ∀ a : List Char, splitNl (a ++ b) = appendSplit (splitNl a) (splitNl b) := by
  intro a
  induction a with
  | nil =>
    cases hb : splitNl b with
    | nil => exact absurd hb (splitNl_ne_nil b)
    | cons q qs => simp [splitNl, appendSplit, consHd, hb]
  | cons c rest ih =>
    by_cases hc : c = '\n'
    · subst hc
      cases hr : splitNl rest with
      | nil => exact absurd hr (splitNl_ne_nil rest)
      | cons p ps =>
        have hl : splitNl (('\n' :: rest) ++ b) = [] :: splitNl (rest ++ b) := by
          simp [splitNl]
        have hr2 : splitNl ('\n' :: rest) = [] :: p :: ps := by
          simp [splitNl, hr]
        rw [hl, ih, hr, hr2]
        rfl
    · cases hr : splitNl rest with
      | nil => exact absurd hr (splitNl_ne_nil rest)
      | cons p ps =>
        have hl : splitNl ((c :: rest) ++ b) =
            (match splitNl (rest ++ b) with
             | [] => [[c]]
             | q :: qs => (c :: q) :: qs) := by
          simp [splitNl, hc]
        have hr2 : splitNl (c :: rest) = (c :: p) :: ps := by
          simp [splitNl, hc, hr]
        rw [hl, ih, hr, hr2]
        cases ps with
        | nil =>
          cases hb : splitNl b with
          | nil => exact absurd hb (splitNl_ne_nil b)
          | cons q qs => simp [appendSplit, consHd]
        | cons p' ps' => rfl

lemma appendSplit_eq (ss : List (List Char)) :
    ∀ ps : List (List Char), ps ≠ [] →
      appendSplit ps ss = ps.dropLast ++ consHd ((ps.getLast?).getD []) ss := by
  intro ps
  induction ps with
  | nil => intro h; exact absurd rfl h
  | cons p ps ih =>
    intro _
    cases ps with
    | nil => rfl
    | cons p' ps' =>
      have := ih (by simp)
      simp only [appendSplit, this, List.dropLast_cons₂, List.getLast?_cons_cons,
        List.cons_append]

lemma splitNl_no_nl : ∀ l : List Char, '\n' ∉ l → splitNl l = [l] := by
  intro l
  induction l with
  | nil => intro _; rfl
  | cons c rest ih =>
    intro h
    have hc : ¬ c = '\n' := fun hh => h (hh ▸ List.mem_cons_self _ _)
    have hrest : '\n' ∉ rest := fun hh => h (List.mem_cons_of_mem _ hh)
    simp [splitNl, hc, ih hrest]

lemma nl_mem_iff_two_le : ∀ l : List Char, '\n' ∈ l ↔ 2 ≤ (splitNl l).length := by
  intro l
  induction l with
  | nil => simp [splitNl]
  | cons c rest ih =>
    by_cases hc : c = '\n'
    · subst hc
      have hsp : splitNl ('\n' :: rest) = [] :: splitNl rest := by simp [splitNl]
      have hpos : 0 < (splitNl rest).length := List.length_pos.mpr (splitNl_ne_nil rest)
      rw [hsp]
      simp only [List.length_cons]
      constructor
      · intro _
        omega
      · intro _
        exact List.mem_cons_self _ _
    · cases hr : splitNl rest with
      | nil => exact absurd hr (splitNl_ne_nil rest)
      | cons p ps =>
        have hsp : splitNl (c :: rest) = (c :: p) :: ps := by simp [splitNl, hc, hr]
        have hmem : ('\n' ∈ c :: rest) ↔ '\n' ∈ rest := by
          constructor
          · intro h
            rcases List.mem_cons.mp h with h | h
            · exact absurd h.symm hc
            · exact h
          · exact fun h => List.mem_cons_of_mem _ h
        rw [hsp, hmem, ih, hr]
        simp

lemma tailAfterLastNl_cons (c : Char) (rest : List Char) :
    tailAfterLastNl (c :: rest) =
      if '\n' ∈ rest then tailAfterLastNl rest
      else if c = '\n' then rest else c :: rest := rfl

lemma tailAfterLastNl_no_nl : ∀ l : List Char, '\n' ∉ l → tailAfterLastNl l = l := by
  intro l
  cases l with
  | nil => intro _; rfl
  | cons c rest =>
    intro h
    have hc : ¬ c = '\n' := fun hh => h (hh ▸ List.mem_cons_self _ _)
    have hrest : '\n' ∉ rest := fun hh => h (List.mem_cons_of_mem _ hh)
    rw [tailAfterLastNl_cons, if_neg hrest, if_neg hc]

lemma nl_not_mem_tailAfterLastNl : ∀ l : List Char, '\n' ∉ tailAfterLastNl l := by
  intro l
  induction l with
  | nil => simp [tailAfterLastNl]
  | cons c rest ih =>
    rw [tailAfterLastNl_cons]
    by_cases hm : '\n' ∈ rest
    · rw [if_pos hm]
      exact ih
    · rw [if_neg hm]
      by_cases hc : c = '\n'
      · rw [if_pos hc]
        exact hm
      · rw [if_neg hc]
        intro hmem
        rcases List.mem_cons.mp hmem with h | h
        · exact hc h.symm
        · exact hm h

lemma getLast_splitNl : ∀ l : List Char,
    ((splitNl l).getLast?).getD [] = tailAfterLastNl l := by
  intro l
  induction l with
  | nil => rfl
  | cons c rest ih =>
    by_cases hc : c = '\n'
    · subst hc
      cases hr : splitNl rest with
      | nil => exact absurd hr (splitNl_ne_nil rest)
      | cons p ps =>
        have h1 : splitNl ('\n' :: rest) = [] :: p :: ps := by simp [splitNl, hr]
        rw [h1, List.getLast?_cons_cons]
        rw [hr] at ih
        rw [ih, tailAfterLastNl_cons]
        by_cases hm : '\n' ∈ rest
        · rw [if_pos hm]
        · rw [if_neg hm, if_pos rfl, tailAfterLastNl_no_nl rest hm]
    · cases hr : splitNl rest with
      | nil => exact absurd hr (splitNl_ne_nil rest)
      | cons p ps =>
        have h1 : splitNl (c :: rest) = (c :: p) :: ps := by simp [splitNl, hc, hr]
        rw [h1]
        cases ps with
        | nil =>
          have hnm : '\n' ∉ rest := by
            rw [nl_mem_iff_two_le, hr]
            simp
          have h2 : splitNl rest = [rest] := splitNl_no_nl rest hnm
          rw [hr] at h2
          obtain rfl : p = rest := by simpa using h2
          rw [tailAfterLastNl_cons, if_neg hnm, if_neg hc]
          simp
        | cons p' ps' =>
          have hm : '\n' ∈ rest := by
            rw [nl_mem_iff_two_le, hr]
            simp
          rw [List.getLast?_cons_cons]
          rw [hr, List.getLast?_cons_cons] at ih
          rw [ih, tailAfterLastNl_cons, if_pos hm]

lemma onData_step (jparse : List Char → Option Json) (s : Session)
    (chunk stream : List Char)
    (hbuf : s.buffer = tailAfterLastNl stream)
    (hresp : s.responses = decodedMessages jparse stream) :
    (onData jparse s chunk).buffer = tailAfterLastNl (stream ++ chunk) ∧
    (onData jparse s chunk).responses = decodedMessages jparse (stream ++ chunk) := by
  have hnonl : '\n' ∉ s.buffer := hbuf ▸ nl_not_mem_tailAfterLastNl stream
  have hsingle : splitNl s.buffer = [s.buffer] := splitNl_no_nl s.buffer hnonl
  have hbufsplit : splitNl (s.buffer ++ chunk) = consHd s.buffer (splitNl chunk) := by
    rw [splitNl_append chunk s.buffer, hsingle]
    rfl
  have hstreamsplit : splitNl (stream ++ chunk) =
      completeLines stream ++ consHd s.buffer (splitNl chunk) := by
    rw [splitNl_append chunk stream,
      appendSplit_eq (splitNl chunk) (splitNl stream) (splitNl_ne_nil stream),
      getLast_splitNl, ← hbuf]
    rfl
  have htail : tailAfterLastNl (stream ++ chunk) =
      (consHd s.buffer (splitNl chunk)).getLastD [] := by
    rw [← getLast_splitNl (stream ++ chunk), hstreamsplit,
      List.getLast?_append_of_ne_nil _ (consHd_ne_nil _ _),
      List.getLastD_eq_getLast?]
  have hcomplete : completeLines (stream ++ chunk) =
      completeLines stream ++ (consHd s.buffer (splitNl chunk)).dropLast := by
    rw [completeLines, hstreamsplit,
      List.dropLast_append_of_ne_nil _ (consHd_ne_nil _ _)]
  constructor
  · show (splitNl (s.buffer ++ chunk)).getLastD [] = _
    rw [hbufsplit, htail]
  · show s.responses ++ (splitNl (s.buffer ++ chunk)).dropLast.filterMap _ = _
    rw [hbufsplit, hresp]
    conv_rhs => rw [decodedMessages, hcomplete, List.filterMap_append _ _ _]
    rfl

lemma processChunks_inv (jparse : List Char → Option Json) :
    ∀ (chunks : List (List Char)) (s : Session) (stream : List Char),
      s.buffer = tailAfterLastNl stream →
      s.responses = decodedMessages jparse stream →
      (processChunks jparse s chunks).buffer =
        tailAfterLastNl (stream ++ chunks.flatten) ∧
      (processChunks jparse s chunks).responses =
        decodedMessages jparse (stream ++ chunks.flatten) := by
  intro chunks
  induction chunks with
  | nil =>
    intro s stream h1 h2
    simpa [processChunks] using ⟨h1, h2⟩
  | cons c cs ih =>
    intro s stream h1 h2
    have hstep := onData_step jparse s c stream h1 h2
    have := ih (onData jparse s c) (stream ++ c) hstep.1 hstep.2
    simpa [processChunks, List.foldl_cons, List.flatten_cons, List.append_assoc] using this

/-- C9: for every sequence of stdout chunks delivered to a fresh session,
after the data callbacks the partial-line buffer holds exactly the suffix
of the concatenated byte stream after its last newline (in particular it
contains no newline), and the receive queue holds exactly the messages
decoded from the complete newline-terminated lines in stream order —
blank lines skipped, unparseable complete lines silently discarded. -/
theorem stream_framing_invariant (jparse : List Char → Option Json) (id : String)
    (pid : Nat) (chunks : List (List Char)) :
    (processChunks jparse (mkSession id pid) chunks).buffer =
      tailAfterLastNl chunks.flatten ∧
    '\n' ∉ (processChunks jparse (mkSession id pid) chunks).buffer ∧
    (processChunks jparse (mkSession id pid) chunks).responses =
      decodedMessages jparse chunks.flatten := by
  have h := processChunks_inv jparse chunks (mkSession id pid) [] rfl rfl
  simp only [List.nil_append] at h
  exact ⟨h.1, h.1 ▸ nl_not_mem_tailAfterLastNl chunks.flatten, h.2⟩

end Omics
